import Mathlib

/-!
Verification of the cache package: the in-process memory store
(`pkg/cache/memory.go`), the error helpers (`pkg/cache/errors.go`) and the
multi-level orchestrator (`pkg/cache/multi.go`).

Modelling conventions:
* time is an integer timestamp (`Int`, nanoseconds); Go durations are `Int`;
* a Go `time.Time` zero value (`IsZero`) is `Option.none` in `expiresAt`;
* JSON-marshalled bytes are modelled by the inductive `JVal` (marshalling a
  supported Go value never fails, and unmarshalling into a same-shaped
  destination returns the stored value; unmarshalling into `int64` succeeds
  exactly on an encoded integer);
* Go `error` is `Option CacheError` (`none` = nil) or `Except CacheError`;
* the store's map is an association list (`MemState`), the mutex is elided
  because every operation holds it for its whole body.
-/

/-- A JSON-encoded value (`[]byte` produced by `json.Marshal`). -/
inductive JVal where
  | jint (n : Int)
  | jstr (s : String)
  | jbool (b : Bool)
deriving Repr, DecidableEq

/-- `json.Unmarshal(bytes, &int64Var)`: succeeds exactly when the stored
bytes encode an integer. -/
def decodeInt : JVal → Option Int
  | JVal.jint n => some n
  | _ => none

/-- The package's errors: the typed `*NotFoundError{Key}`, the sentinel
`ErrNotFound` from `errors.New`, and any other error carrying a message
(e.g. a redis client error); identity of `errors.New` values is by
constructor, matching Go pointer identity. -/
inductive CacheError where
  | notFoundKey (key : String)
  | errNotFound
  | errMsg (msg : String)
deriving Repr, DecidableEq

/-- `err.Error()`: `NotFoundError.Error` renders
`"cache: key not found: " + e.Key`; the sentinel was created as
`errors.New("cache: key not found")`; other errors carry their message. -/
def CacheError.errorString : CacheError → String
  | CacheError.notFoundKey k => "cache: key not found: " ++ k
  | CacheError.errNotFound => "cache: key not found"
  | CacheError.errMsg m => m

/-- `IsNotFound` from `errors.go`: nil is not a not-found; `errors.As`
matches the typed `*NotFoundError`; `errors.Is` matches the identical
sentinel value; finally the message is compared against `"redis: nil"`. -/
def IsNotFound : Option CacheError → Bool
  | none => false
  | some (CacheError.notFoundKey _) => true
  | some CacheError.errNotFound => true
  | some (CacheError.errMsg m) => m == "redis: nil"

/-- `cacheItem`: the stored bytes and the absolute expiration
(`none` = zero `time.Time` = never expires). -/
structure CacheItem where
  value : JVal
  expiresAt : Option Int
deriving Repr, DecidableEq

/-- `cacheItem.isExpired`: a zero `expiresAt` never expires; otherwise
expired iff `time.Now().After(expiresAt)` (strict). -/
def CacheItem.isExpired (item : CacheItem) (now : Int) : Bool :=
  match item.expiresAt with
  | none => false
  | some t => now > t

/-- The memory store's map `map[string]*cacheItem`. -/
abbrev MemState := List (String × CacheItem)

/-- Map lookup `c.data[key]`. -/
def MemState.lookup (st : MemState) (key : String) : Option CacheItem :=
  List.lookup key st

/-- `delete(c.data, key)`. -/
def MemState.erase (st : MemState) (key : String) : MemState :=
  List.filter (fun p => !(p.1 == key)) st

/-- `c.data[key] = item`. -/
def MemState.store (st : MemState) (key : String) (item : CacheItem) : MemState :=
  (key, item) :: st.erase key

/-- `memoryCache.Get`: miss (or lazily observed expiry) returns
`*NotFoundError{Key}`; otherwise unmarshal the stored bytes into the
caller's same-shaped destination. -/
def memGet (st : MemState) (now : Int) (key : String) : Except CacheError JVal :=
  match st.lookup key with
  | none => Except.error (CacheError.notFoundKey key)
  | some item =>
    if item.isExpired now then Except.error (CacheError.notFoundKey key)
    else Except.ok item.value

/-- `memoryCache.Set`: marshal, build the item, and set `expiresAt` only
when `ttl > 0`. Always returns nil for marshallable values. -/
def memSet (st : MemState) (now : Int) (key : String) (v : JVal) (ttl : Int) : MemState :=
  st.store key { value := v, expiresAt := if 0 < ttl then some (now + ttl) else none }

/-- `memoryCache.Delete`. -/
def memDelete (st : MemState) (key : String) : MemState :=
  st.erase key

/-- `memoryCache.Exists`: present and not expired. -/
def memExists (st : MemState) (now : Int) (key : String) : Bool :=
  match st.lookup key with
  | none => false
  | some item => !(item.isExpired now)

/-- `memoryCache.TTL`: `(-2, nil)` when absent, `(-1, nil)` when no
expiration is set, `(-2, nil)` when expired, else `(time.Until(expiresAt), nil)`. -/
def memTTL (st : MemState) (now : Int) (key : String) : Int × Option CacheError :=
  match st.lookup key with
  | none => (-2, none)
  | some item =>
    match item.expiresAt with
    | none => (-1, none)
    | some t => if item.isExpired now then (-2, none) else (t - now, none)

/-- `memoryCache.IncrBy`: `current` starts at 0, is overwritten by a
successful unmarshal of an existing unexpired entry (the unmarshal error is
discarded), the delta is added and the entry is rewritten as a fresh
`&cacheItem{value: data}`; returns `(current, nil)`. -/
def memIncrBy (st : MemState) (now : Int) (key : String) (value : Int) :
    Int × Option CacheError × MemState :=
  let current : Int :=
    match st.lookup key with
    | some item => if item.isExpired now then 0 else (decodeInt item.value).getD 0
    | none => 0
  let next := current + value
  (next, none, st.store key { value := JVal.jint next, expiresAt := none })

/-- `memoryCache.Incr`: `IncrBy(key, 1)`. -/
def memIncr (st : MemState) (now : Int) (key : String) : Int × Option CacheError × MemState :=
  memIncrBy st now key 1

/-- `memoryCache.DecrBy`: `IncrBy(key, -value)`. -/
def memDecrBy (st : MemState) (now : Int) (key : String) (value : Int) :
    Int × Option CacheError × MemState :=
  memIncrBy st now key (-value)

/-- `memoryCache.Decr`: `DecrBy(key, 1)`. -/
def memDecr (st : MemState) (now : Int) (key : String) : Int × Option CacheError × MemState :=
  memDecrBy st now key 1

/-- `memoryCache.SetNX`: inside one critical section, an existing unexpired
entry makes it return `(false, nil)` without writing; otherwise marshal,
build the item (expiration only when `ttl > 0`), store, return `(true, nil)`. -/
def memSetNX (st : MemState) (now : Int) (key : String) (v : JVal) (ttl : Int) :
    Bool × Option CacheError × MemState :=
  match st.lookup key with
  | some item =>
    if item.isExpired now then
      (true, none,
        st.store key { value := v, expiresAt := if 0 < ttl then some (now + ttl) else none })
    else (false, none, st)
  | none =>
    (true, none,
      st.store key { value := v, expiresAt := if 0 < ttl then some (now + ttl) else none })

/-- `memoryCache.Expire`: when the key is present, set
`item.expiresAt = time.Now().Add(ttl)` unconditionally (no `ttl > 0` guard);
always returns nil. -/
def memExpire (st : MemState) (now : Int) (key : String) (ttl : Int) :
    Option CacheError × MemState :=
  (none,
    List.map (fun p => if p.1 == key then (p.1, { p.2 with expiresAt := some (now + ttl) }) else p) st)

/-- `memoryCache.cleanup` sweep pass: delete every expired entry. -/
def memSweep (st : MemState) (now : Int) : MemState :=
  List.filter (fun p => !(p.2.isExpired now)) st

/-!
The multi-level orchestrator (`multi.go`) over an abstract tier. A tier's
observable behaviour on the read path is its `Get` outcome, its `TTL` pair
`(duration, error)` — the orchestrator keeps only the duration, discarding
the error with `ttl, _ :=` — and the outcome of a backfill `Set`, which the
orchestrator discards with `_ =`. Both in-repo implementations return a
nonpositive duration alongside a TTL error (the memory store's TTL error is
always nil; the redis client's `TTL(...).Result()` yields `0` on failure).
-/

/-- One tier as seen by `multiLevelCache.Get`. -/
structure TierOps where
  getRes : String → Except CacheError JVal
  ttlRes : String → Int × Option CacheError
  setRes : String → JVal → Int → Option CacheError

/-- The loop body of `multiLevelCache.Get`: probe tiers in order; on a hit
at index `i > 0` read the hit tier's TTL (error discarded) and, when it is
positive, backfill the value with that TTL into tiers `0..i-1`, discarding
each backfill outcome; return nil. On a total miss return
`*NotFoundError{Key}`. `passed` holds the already-probed (missing) tiers,
so the hit index is `passed.length`; the returned trace records, in order,
each backfill write performed as `(tier index, discarded outcome)`. -/
def multiGetGo (key : String) (passed : List TierOps) :
    List TierOps → Except CacheError JVal × List (Nat × Option CacheError)
  | [] => (Except.error (CacheError.notFoundKey key), [])
  | level :: rest =>
    match level.getRes key with
    | Except.ok v =>
      if 0 < passed.length then
        let ttl := (level.ttlRes key).1
        if 0 < ttl then
          (Except.ok v, passed.enum.map (fun p => (p.1, p.2.setRes key v ttl)))
        else (Except.ok v, [])
      else (Except.ok v, [])
    | Except.error _ => multiGetGo key (passed ++ [level]) rest

/-- `multiLevelCache.Get`. -/
def multiLevelGet (levels : List TierOps) (key : String) :
    Except CacheError JVal × List (Nat × Option CacheError) :=
  multiGetGo key [] levels

/-- One tier as seen by the orchestrator's fan-out mutations: the error
each per-tier call returns. -/
structure MutTier where
  setErr : String → JVal → Int → Option CacheError
  deleteErr : String → Option CacheError
  msetErr : List (String × JVal) → Int → Option CacheError
  mdeleteErr : List String → Option CacheError
  expireErr : String → Int → Option CacheError

/-- The fan-out loop shared by `Set`/`Delete`/`MSet`/`MDelete`/`Expire`:
`lastErr` is overwritten by every non-nil per-tier error and returned. -/
def lastErrLoop (results : List (Option CacheError)) : Option CacheError :=
  results.foldl (fun lastErr r => match r with | some e => some e | none => lastErr) none

/-- `multiLevelCache.Set`: apply to every tier, returning the per-tier
outcomes in order and the loop's `lastErr`. -/
def multiSet (levels : List MutTier) (key : String) (v : JVal) (ttl : Int) :
    List (Option CacheError) × Option CacheError :=
  let rs := levels.map (fun l => l.setErr key v ttl)
  (rs, lastErrLoop rs)

/-- `multiLevelCache.Delete`. -/
def multiDelete (levels : List MutTier) (key : String) :
    List (Option CacheError) × Option CacheError :=
  let rs := levels.map (fun l => l.deleteErr key)
  (rs, lastErrLoop rs)

/-- `multiLevelCache.MSet`. -/
def multiMSet (levels : List MutTier) (items : List (String × JVal)) (ttl : Int) :
    List (Option CacheError) × Option CacheError :=
  let rs := levels.map (fun l => l.msetErr items ttl)
  (rs, lastErrLoop rs)

/-- `multiLevelCache.MDelete`. -/
def multiMDelete (levels : List MutTier) (keys : List String) :
    List (Option CacheError) × Option CacheError :=
  let rs := levels.map (fun l => l.mdeleteErr keys)
  (rs, lastErrLoop rs)

/-- `multiLevelCache.Expire`. -/
def multiExpire (levels : List MutTier) (key : String) (ttl : Int) :
    List (Option CacheError) × Option CacheError :=
  let rs := levels.map (fun l => l.expireErr key ttl)
  (rs, lastErrLoop rs)

/-- Specification-side description of the fan-out error policy: the last
non-nil error among the per-tier outcomes, nil when none failed. -/
def lastErrSpec (results : List (Option CacheError)) : Option CacheError :=
  (results.filterMap id).getLast?

/-- A concrete tier that always hits with value `1` and a 60-unit TTL. -/
def hitTier : TierOps where
  getRes := fun _ => Except.ok (JVal.jint 1)
  ttlRes := fun _ => (60, none)
  setRes := fun _ _ _ => none

/-- A concrete tier that always misses. -/
def missTier : TierOps where
  getRes := fun k => Except.error (CacheError.notFoundKey k)
  ttlRes := fun _ => (-2, none)
  setRes := fun _ _ _ => none

/-- A concrete tier whose driver is down: every call fails with a
transport error, and — like the redis adapter, whose `TTL(...).Result()`
yields `0` alongside the error — its TTL value is `0`. -/
def backendTier : TierOps where
  getRes := fun _ => Except.error (CacheError.errMsg "dial tcp: connection refused")
  ttlRes := fun _ => (0, some (CacheError.errMsg "dial tcp: connection refused"))
  setRes := fun _ _ _ => some (CacheError.errMsg "dial tcp: connection refused")

/-! ### Helper lemmas about the store's map -/

lemma lookup_store_self (st : MemState) (k : String) (item : CacheItem) :
    MemState.lookup (st.store k item) k = some item := by
  simp [MemState.store, MemState.lookup, List.lookup_cons]

lemma lookup_keys_ne : ∀ (l : MemState) (k : String),
    (∀ p ∈ l, ¬ p.1 = k) → MemState.lookup l k = none
  | [], _, _ => rfl
  | (a, b) :: rest, k, h => by
    have h1 : ¬ a = k := h (a, b) (List.mem_cons_self _ _)
    have hk : (k == a) = false := by
      simp only [beq_eq_false_iff_ne, ne_eq]
      exact fun e => h1 e.symm
    have hrest := lookup_keys_ne rest k (fun q hq => h q (List.mem_cons_of_mem _ hq))
    simp only [MemState.lookup, List.lookup_cons, hk]
    exact hrest

lemma lookup_filter_erase (st : MemState) (k : String) (q : String × CacheItem → Bool) :
    MemState.lookup (List.filter q (MemState.erase st k)) k = none := by
  apply lookup_keys_ne
  intro p hp
  have hp2 : p ∈ List.filter (fun p => !(p.1 == k)) st := List.mem_of_mem_filter hp
  have hq := (List.mem_filter.mp hp2).2
  simpa using hq

lemma lookup_sweep_store (st : MemState) (nowS : Int) (k : String) (item : CacheItem) :
    MemState.lookup (memSweep (st.store k item) nowS) k
      = if item.isExpired nowS then none else some item := by
  by_cases h : item.isExpired nowS
  · have hrest := lookup_filter_erase st k (fun p => !(p.2.isExpired nowS))
    simp only [memSweep, MemState.store, List.filter_cons, h, Bool.not_true, if_neg,
      Bool.false_eq_true, not_false_eq_true, if_true]
    simpa [memSweep, MemState.erase] using hrest
  · simp [memSweep, MemState.store, List.filter_cons, h, MemState.lookup, List.lookup_cons]

lemma lookup_expire (st : MemState) (now ttl : Int) (k : String) :
    MemState.lookup (memExpire st now k ttl).2 k
      = (MemState.lookup st k).map
          (fun it => { value := it.value, expiresAt := some (now + ttl) }) := by
  induction st with
  | nil => rfl
  | cons p rest ih =>
    obtain ⟨a, it0⟩ := p
    by_cases h : a = k
    · subst h
      simp [memExpire, MemState.lookup, List.lookup_cons]
    · have hak : (a == k) = false := by simp [h]
      have hka : (k == a) = false := by simp [Ne.symm h]
      simp only [memExpire, List.map_cons, MemState.lookup, List.lookup_cons, hak, hka,
        Bool.false_eq_true, if_false] at ih ⊢
      exact ih

/-! ### Claims about the in-process store and the error helpers -/

/-- C8: `IsNotFound` returns true exactly for the typed per-key
`NotFoundError` (whose message renders as `"cache: key not found: <key>"`),
the generic sentinel (whose message renders as `"cache: key not found"`),
and any error whose message equals `"redis: nil"`; it returns false for nil
and for every other error. -/
theorem C8_isNotFound_exactly :
    IsNotFound none = false
    ∧ (∀ e : CacheError,
        IsNotFound (some e) = true ↔
          (∃ k, e = CacheError.notFoundKey k) ∨ e = CacheError.errNotFound
            ∨ e.errorString = "redis: nil")
    ∧ (∀ k, (CacheError.notFoundKey k).errorString = "cache: key not found: " ++ k)
    ∧ CacheError.errNotFound.errorString = "cache: key not found" := by
  refine ⟨rfl, ?_, fun k => rfl, rfl⟩
  intro e
  cases e with
  | notFoundKey k =>
    simp [IsNotFound]
  | errNotFound =>
    simp [IsNotFound]
  | errMsg m =>
    simp [IsNotFound, CacheError.errorString]

/-- C6 (amended): `TTL` returns `(-2, nil)` for a key never set or set and
since expired, `(-1, nil)` for a key stored with `ttl ≤ 0` (no expiration),
and otherwise the *nonnegative* remaining duration `expiresAt − now` — which
is zero, not positive, when queried exactly at the expiration instant,
because expiry is the strict `time.Now().After`. -/
theorem C6_ttl_sentinels :
    ∀ (st : MemState) (now nowQ : Int) (k : String) (v : JVal) (ttl : Int),
      (MemState.lookup st k = none → memTTL st nowQ k = (-2, none))
      ∧ (ttl ≤ 0 → memTTL (memSet st now k v ttl) nowQ k = (-1, none))
      ∧ (0 < ttl → now + ttl < nowQ → memTTL (memSet st now k v ttl) nowQ k = (-2, none))
      ∧ (0 < ttl → nowQ ≤ now + ttl →
          memTTL (memSet st now k v ttl) nowQ k = (now + ttl - nowQ, none)
          ∧ 0 ≤ now + ttl - nowQ) := by
  intro st now nowQ k v ttl
  refine ⟨fun h => by simp [memTTL, h], fun h => ?_, fun h1 h2 => ?_, fun h1 h2 => ?_⟩
  · have hs := lookup_store_self st k { value := v, expiresAt := none }
    simp [memTTL, memSet, show ¬ 0 < ttl by omega, hs]
  · have hs := lookup_store_self st k { value := v, expiresAt := some (now + ttl) }
    simp [memTTL, memSet, h1, hs, CacheItem.isExpired, h2]
  · have hs := lookup_store_self st k { value := v, expiresAt := some (now + ttl) }
    refine ⟨?_, by omega⟩
    simp [memTTL, memSet, h1, hs, CacheItem.isExpired, show ¬ now + ttl < nowQ by omega]

/-- Witness for C6 at concrete inputs. -/
theorem C6_ttl_sentinels_witness :
    memTTL [] 5 "k" = (-2, none)
    ∧ memTTL (memSet [] 5 "k" (JVal.jint 1) 0) 99 "k" = (-1, none)
    ∧ memTTL (memSet [] 5 "k" (JVal.jint 1) 10) 20 "k" = (-2, none)
    ∧ memTTL (memSet [] 5 "k" (JVal.jint 1) 10) 12 "k" = (3, none) :=
  ⟨(C6_ttl_sentinels [] 5 5 "k" (JVal.jint 1) 0).1 rfl,
   (C6_ttl_sentinels [] 5 99 "k" (JVal.jint 1) 0).2.1 (by decide),
   (C6_ttl_sentinels [] 5 20 "k" (JVal.jint 1) 10).2.2.1 (by decide) (by decide),
   ((C6_ttl_sentinels [] 5 12 "k" (JVal.jint 1) 10).2.2.2 (by decide) (by decide)).1⟩

/-- C6 counterexample to the claim as stated: a key that exists, is not
expired and has an expiration set, yet whose `TTL` is `0` — not a positive
duration — when queried exactly at the expiration instant. -/
theorem C6_zero_at_expiration_instant :
    memExists (memSet [] 0 "k" (JVal.jint 1) 100) 100 "k" = true
    ∧ MemState.lookup (memSet [] 0 "k" (JVal.jint 1) 100) "k"
        = some { value := JVal.jint 1, expiresAt := some 100 }
    ∧ memTTL (memSet [] 0 "k" (JVal.jint 1) 100) 100 "k" = (0, none)
    ∧ ¬ (0 : Int) < 0 := by
  refine ⟨?_, ?_, ?_, by omega⟩ <;> decide

/-- C2 counterexample to the claim as stated: a key holding `5` with an
expiration 60 in the future; `IncrBy(k, 1)` returns `6` but rewrites the
entry with *no* expiration (`expiresAt` cleared, `TTL` now `-1`), so the
entry's expiration is not left unchanged. -/
theorem C2_incr_drops_expiration :
    memTTL [("k", { value := JVal.jint 5, expiresAt := some 100 })] 40 "k" = (60, none)
    ∧ (memIncrBy [("k", { value := JVal.jint 5, expiresAt := some 100 })] 40 "k" 1).1 = 6
    ∧ MemState.lookup
        (memIncrBy [("k", { value := JVal.jint 5, expiresAt := some 100 })] 40 "k" 1).2.2 "k"
        = some { value := JVal.jint 6, expiresAt := none }
    ∧ memTTL (memIncrBy [("k", { value := JVal.jint 5, expiresAt := some 100 })] 40 "k" 1).2.2
        40 "k" = (-1, none) := by
  refine ⟨?_, ?_, ?_, ?_⟩ <;> decide

lemma memTTL_store_noexp (st : MemState) (now : Int) (k : String) (v : JVal) :
    memTTL (st.store k { value := v, expiresAt := none }) now k = (-1, none) := by
  simp [memTTL, lookup_store_self]

lemma memGet_store_noexp (st : MemState) (now : Int) (k : String) (v : JVal) :
    memGet (st.store k { value := v, expiresAt := none }) now k = Except.ok v := by
  simp [memGet, lookup_store_self, CacheItem.isExpired]

/-- C2 (amended): `Incr`/`IncrBy`/`Decr`/`DecrBy` read the current numeric
value (absence as zero), add the delta, and rewrite the entry as a fresh
item with *no* expiration: any previously set expiration is dropped, so the
rewritten key's `TTL` is always `-1`. -/
theorem C2_incrby_rewrite :
    ∀ (st : MemState) (now : Int) (k : String) (d : Int),
      memTTL (memIncrBy st now k d).2.2 now k = (-1, none)
      ∧ memGet (memIncrBy st now k d).2.2 now k
          = Except.ok (JVal.jint ((memIncrBy st now k d).1))
      ∧ (∀ it n, MemState.lookup st k = some it → it.isExpired now = false →
          decodeInt it.value = some n → (memIncrBy st now k d).1 = n + d)
      ∧ (MemState.lookup st k = none → (memIncrBy st now k d).1 = d)
      ∧ memIncr st now k = memIncrBy st now k 1
      ∧ memDecr st now k = memIncrBy st now k (-1)
      ∧ (∀ d2, memDecrBy st now k d2 = memIncrBy st now k (-d2)) := by
  intro st now k d
  refine ⟨memTTL_store_noexp st now k (JVal.jint ((memIncrBy st now k d).1)),
    memGet_store_noexp st now k (JVal.jint ((memIncrBy st now k d).1)),
    fun it n h1 h2 h3 => ?_, fun h => ?_, rfl, rfl, fun d2 => rfl⟩
  · simp [memIncrBy, h1, h2, h3]
  · simp [memIncrBy, h]

/-- Witness for C2 (amended) at a concrete input. -/
theorem C2_incrby_rewrite_witness :
    memTTL (memIncrBy [("k", { value := JVal.jint 5, expiresAt := some 100 })] 40 "k" 2).2.2
        40 "k" = (-1, none)
    ∧ (memIncrBy [("k", { value := JVal.jint 5, expiresAt := some 100 })] 40 "k" 2).1 = 5 + 2 :=
  ⟨(C2_incrby_rewrite [("k", { value := JVal.jint 5, expiresAt := some 100 })] 40 "k" 2).1,
   (C2_incrby_rewrite [("k", { value := JVal.jint 5, expiresAt := some 100 })] 40 "k" 2).2.2.1
     { value := JVal.jint 5, expiresAt := some 100 } 5 (by decide) (by decide) (by decide)⟩

/-- C10: the increment family always returns a nil error; when the stored
bytes of an existing unexpired entry do not decode as an integer, the
decode failure is ignored, the current value is treated as `0`, and the
entry is overwritten with just the delta. -/
theorem C10_incr_nil_error :
    ∀ (st : MemState) (now : Int) (k : String) (d : Int),
      (memIncrBy st now k d).2.1 = none
      ∧ (memIncr st now k).2.1 = none
      ∧ (memDecr st now k).2.1 = none
      ∧ (memDecrBy st now k d).2.1 = none
      ∧ (∀ it, MemState.lookup st k = some it → it.isExpired now = false →
          decodeInt it.value = none →
          (memIncrBy st now k d).1 = d
          ∧ MemState.lookup (memIncrBy st now k d).2.2 k
              = some { value := JVal.jint d, expiresAt := none }) := by
  intro st now k d
  refine ⟨rfl, rfl, rfl, rfl, fun it h1 h2 h3 => ?_⟩
  have hv : (memIncrBy st now k d).1 = d := by simp [memIncrBy, h1, h2, h3]
  refine ⟨hv, ?_⟩
  calc MemState.lookup (memIncrBy st now k d).2.2 k
      = some { value := JVal.jint ((memIncrBy st now k d).1), expiresAt := none } :=
        lookup_store_self st k _
    _ = some { value := JVal.jint d, expiresAt := none } := by rw [hv]

/-- Witness for C10 at a concrete input: an entry holding the non-numeric
bytes `"abc"` is overwritten with the bare delta and no error. -/
theorem C10_incr_nil_error_witness :
    (memIncrBy [("k", { value := JVal.jstr "abc", expiresAt := none })] 7 "k" 5).1 = 5
    ∧ MemState.lookup
        (memIncrBy [("k", { value := JVal.jstr "abc", expiresAt := none })] 7 "k" 5).2.2 "k"
        = some { value := JVal.jint 5, expiresAt := none } :=
  (C10_incr_nil_error [("k", { value := JVal.jstr "abc", expiresAt := none })] 7 "k" 5).2.2.2.2
    { value := JVal.jstr "abc", expiresAt := none } (by decide) (by decide) (by decide)

/-- C9: `Expire(k, ttl)` with `ttl ≤ 0` on an existing key sets the
absolute expiration to `now + ttl` (a time at or before `now`) — it does
not follow `Set`'s "`ttl ≤ 0` means no expiration" convention — so any
strictly later `Get`/`Exists`/`TTL` treats the key as absent; `Expire`
always returns nil, including on an absent key. -/
theorem C9_expire_nonpositive_ttl :
    ∀ (st : MemState) (now nowQ ttl : Int) (k : String) (it : CacheItem),
      (memExpire st now k ttl).1 = none
      ∧ (MemState.lookup st k = some it → ttl ≤ 0 → now < nowQ →
          MemState.lookup (memExpire st now k ttl).2 k
            = some { value := it.value, expiresAt := some (now + ttl) }
          ∧ now + ttl ≤ now
          ∧ memGet (memExpire st now k ttl).2 nowQ k = Except.error (CacheError.notFoundKey k)
          ∧ memExists (memExpire st now k ttl).2 nowQ k = false
          ∧ memTTL (memExpire st now k ttl).2 nowQ k = (-2, none)) := by
  intro st now nowQ ttl k it
  refine ⟨rfl, fun h1 h2 h3 => ?_⟩
  have hl : MemState.lookup (memExpire st now k ttl).2 k
      = some { value := it.value, expiresAt := some (now + ttl) } := by
    rw [lookup_expire, h1]; rfl
  have hexp : ({ value := it.value, expiresAt := some (now + ttl) } : CacheItem).isExpired nowQ
      = true := by
    simp only [CacheItem.isExpired, decide_eq_true_eq, gt_iff_lt]
    omega
  refine ⟨hl, by omega, ?_, ?_, ?_⟩
  · simp [memGet, hl, hexp]
  · simp [memExists, hl, hexp]
  · simp [memTTL, hl, hexp]

/-- Witness for C9 at a concrete input. -/
theorem C9_expire_nonpositive_ttl_witness :
    MemState.lookup
        (memExpire [("k", { value := JVal.jint 1, expiresAt := some 50 })] 10 "k" (-3)).2 "k"
      = some { value := JVal.jint 1, expiresAt := some (10 + (-3)) }
    ∧ memGet (memExpire [("k", { value := JVal.jint 1, expiresAt := some 50 })] 10 "k" (-3)).2
        11 "k" = Except.error (CacheError.notFoundKey "k")
    ∧ memTTL (memExpire [("k", { value := JVal.jint 1, expiresAt := some 50 })] 10 "k" (-3)).2
        11 "k" = (-2, none) :=
  match (C9_expire_nonpositive_ttl [("k", { value := JVal.jint 1, expiresAt := some 50 })]
      10 11 (-3) "k" { value := JVal.jint 1, expiresAt := some 50 }).2
      (by decide) (by decide) (by decide) with
  | ⟨hA, _, hB, _, hC⟩ => ⟨hA, hB, hC⟩

/-- C4: `Set(k, v, ttl)` with `ttl > 0` followed immediately by `Get(k)`
returns `v` with no loss; once `ttl` has elapsed (strictly after
`now + ttl`, expiry being the strict `After`), `Get(k)` returns the
per-key NotFound error — both before the background sweep has removed the
entry and after a sweep pass has physically deleted it. -/
theorem C4_set_get_roundtrip :
    ∀ (st : MemState) (now nowQ : Int) (k : String) (v : JVal) (ttl : Int),
      0 < ttl →
      memGet (memSet st now k v ttl) now k = Except.ok v
      ∧ (now + ttl < nowQ →
          memGet (memSet st now k v ttl) nowQ k = Except.error (CacheError.notFoundKey k)
          ∧ memGet (memSweep (memSet st now k v ttl) nowQ) nowQ k
              = Except.error (CacheError.notFoundKey k)
          ∧ MemState.lookup (memSweep (memSet st now k v ttl) nowQ) k = none) := by
  intro st now nowQ k v ttl h
  have hset : memSet st now k v ttl = st.store k { value := v, expiresAt := some (now + ttl) } := by
    simp [memSet, h]
  have hs := lookup_store_self st k { value := v, expiresAt := some (now + ttl) }
  constructor
  · simp [memGet, hset, hs, CacheItem.isExpired, show ¬ now + ttl < now by omega]
  · intro h2
    have hexp : ({ value := v, expiresAt := some (now + ttl) } : CacheItem).isExpired nowQ
        = true := by
      simp only [CacheItem.isExpired, decide_eq_true_eq, gt_iff_lt]
      omega
    have hsw : MemState.lookup (memSweep (memSet st now k v ttl) nowQ) k = none := by
      rw [hset, lookup_sweep_store, hexp]
      simp
    exact ⟨by simp [memGet, hset, hs, hexp], by simp [memGet, hsw], hsw⟩

/-- Witness for C4 at a concrete input. -/
theorem C4_set_get_roundtrip_witness :
    memGet (memSet [] 0 "k" (JVal.jint 7) 10) 0 "k" = Except.ok (JVal.jint 7)
    ∧ memGet (memSet [] 0 "k" (JVal.jint 7) 10) 11 "k"
        = Except.error (CacheError.notFoundKey "k")
    ∧ memGet (memSweep (memSet [] 0 "k" (JVal.jint 7) 10) 11) 11 "k"
        = Except.error (CacheError.notFoundKey "k") :=
  ⟨(C4_set_get_roundtrip [] 0 11 "k" (JVal.jint 7) 10 (by decide)).1,
   ((C4_set_get_roundtrip [] 0 11 "k" (JVal.jint 7) 10 (by decide)).2 (by decide)).1,
   ((C4_set_get_roundtrip [] 0 11 "k" (JVal.jint 7) 10 (by decide)).2 (by decide)).2.1⟩

/-- C5: `SetNX` creates only when the key is absent-or-expired, returns
`true` with a nil error iff this call performed the creation; a first
`SetNX` on a fresh key returns `(true, nil)` and a second `SetNX` while
the key is unexpired returns `(false, nil)`, leaves the state unchanged,
and `Get` still yields the first value. -/
theorem C5_setnx_create_once :
    ∀ (st : MemState) (now : Int) (k : String) (v : JVal) (ttl : Int),
      ((memSetNX st now k v ttl).1 = true ↔ memExists st now k = false)
      ∧ (memSetNX st now k v ttl).2.1 = none
      ∧ ((memSetNX st now k v ttl).1 = false → (memSetNX st now k v ttl).2.2 = st)
      ∧ ((memSetNX st now k v ttl).1 = true →
          MemState.lookup (memSetNX st now k v ttl).2.2 k
            = some { value := v, expiresAt := if 0 < ttl then some (now + ttl) else none })
      ∧ (∀ nowQ v2, MemState.lookup st k = none → 0 < ttl → nowQ ≤ now + ttl →
          memSetNX (memSetNX st now k v ttl).2.2 nowQ k v2 ttl
            = (false, none, (memSetNX st now k v ttl).2.2)
          ∧ memGet (memSetNX st now k v ttl).2.2 nowQ k = Except.ok v) := by
  intro st now k v ttl
  have hfresh : ∀ nowQ v2, MemState.lookup st k = none → 0 < ttl → nowQ ≤ now + ttl →
      memSetNX (memSetNX st now k v ttl).2.2 nowQ k v2 ttl
        = (false, none, (memSetNX st now k v ttl).2.2)
      ∧ memGet (memSetNX st now k v ttl).2.2 nowQ k = Except.ok v := by
    intro nowQ v2 hl ht hq
    have hstate : (memSetNX st now k v ttl).2.2
        = st.store k { value := v, expiresAt := some (now + ttl) } := by
      simp [memSetNX, hl, ht]
    have hs1 : MemState.lookup (memSetNX st now k v ttl).2.2 k
        = some { value := v, expiresAt := some (now + ttl) } := by
      rw [hstate]
      exact lookup_store_self st k _
    have hnotexp : ({ value := v, expiresAt := some (now + ttl) } : CacheItem).isExpired nowQ
        = false := by
      simp only [CacheItem.isExpired, gt_iff_lt, decide_eq_false_iff_not, not_lt]
      omega
    revert hs1
    generalize (memSetNX st now k v ttl).2.2 = A
    intro hs1
    exact ⟨by simp [memSetNX, hs1, hnotexp], by simp [memGet, hs1, hnotexp]⟩
  refine ⟨?_, ?_, ?_, ?_, hfresh⟩
  · rcases hl : MemState.lookup st k with _ | item
    · simp [memSetNX, hl, memExists]
    · cases hexp : item.isExpired now with
      | false => simp [memSetNX, hl, hexp, memExists]
      | true => simp [memSetNX, hl, hexp, memExists]
  · rcases hl : MemState.lookup st k with _ | item
    · simp [memSetNX, hl]
    · cases hexp : item.isExpired now with
      | false => simp [memSetNX, hl, hexp]
      | true => simp [memSetNX, hl, hexp]
  · intro hfalse
    rcases hl : MemState.lookup st k with _ | item
    · simp [memSetNX, hl] at hfalse
    · cases hexp : item.isExpired now with
      | false => simp [memSetNX, hl, hexp]
      | true => simp [memSetNX, hl, hexp] at hfalse
  · intro htrue
    rcases hl : MemState.lookup st k with _ | item
    · have hrw : memSetNX st now k v ttl = (true, none, st.store k
          { value := v, expiresAt := if 0 < ttl then some (now + ttl) else none }) := by
        simp [memSetNX, hl]
      rw [hrw]
      exact lookup_store_self st k _
    · cases hexp : item.isExpired now with
      | false => simp [memSetNX, hl, hexp] at htrue
      | true =>
        have hrw : memSetNX st now k v ttl = (true, none, st.store k
            { value := v, expiresAt := if 0 < ttl then some (now + ttl) else none }) := by
          simp [memSetNX, hl, hexp]
        rw [hrw]
        exact lookup_store_self st k _

/-- Witness for C5 at a concrete input: first `SetNX` wins, second loses
and the first value survives. -/
theorem C5_setnx_create_once_witness :
    memSetNX (memSetNX [] 0 "k" (JVal.jint 1) 10).2.2 4 "k" (JVal.jint 2) 10
      = (false, none, (memSetNX [] 0 "k" (JVal.jint 1) 10).2.2)
    ∧ memGet (memSetNX [] 0 "k" (JVal.jint 1) 10).2.2 4 "k" = Except.ok (JVal.jint 1)
    ∧ (memSetNX [] 0 "k" (JVal.jint 1) 10).1 = true :=
  ⟨((C5_setnx_create_once [] 0 "k" (JVal.jint 1) 10).2.2.2.2 4 (JVal.jint 2)
      (by decide) (by decide) (by decide)).1,
   ((C5_setnx_create_once [] 0 "k" (JVal.jint 1) 10).2.2.2.2 4 (JVal.jint 2)
      (by decide) (by decide) (by decide)).2,
   ((C5_setnx_create_once [] 0 "k" (JVal.jint 1) 10).1).mpr (by decide)⟩

/-! ### Claims about the multi-level orchestrator -/

lemma lastErrLoop_append (rs : List (Option CacheError)) (r : Option CacheError) :
    lastErrLoop (rs ++ [r]) = match r with | some e => some e | none => lastErrLoop rs := by
  cases r <;> simp [lastErrLoop, List.foldl_append]

lemma lastErrSpec_append (rs : List (Option CacheError)) (r : Option CacheError) :
    lastErrSpec (rs ++ [r]) = match r with | some e => some e | none => lastErrSpec rs := by
  cases r with
  | none => simp [lastErrSpec, List.filterMap_append]
  | some e => simp [lastErrSpec, List.filterMap_append, List.getLast?_concat]

lemma lastErrLoop_eq_spec (rs : List (Option CacheError)) : lastErrLoop rs = lastErrSpec rs := by
  induction rs using List.reverseRecOn with
  | nil => rfl
  | append_singleton l r ih =>
    rw [lastErrLoop_append, lastErrSpec_append]
    cases r <;> simp [ih]

/-- C7: each fan-out mutation (`Set`, `MSet`, `Delete`, `MDelete`,
`Expire`) consults every configured tier in order — the per-tier outcome
trace covers the whole tier list even when earlier tiers fail — and
returns the *last* non-nil per-tier error (nil when no tier failed);
earlier tiers' errors are not reported. -/
theorem C7_fanout_every_tier_last_error :
    ∀ (levels : List MutTier) (k : String) (v : JVal) (ttl : Int)
      (items : List (String × JVal)) (keys : List String),
      multiSet levels k v ttl
        = (levels.map (fun l => l.setErr k v ttl),
           lastErrSpec (levels.map (fun l => l.setErr k v ttl)))
      ∧ multiDelete levels k
        = (levels.map (fun l => l.deleteErr k),
           lastErrSpec (levels.map (fun l => l.deleteErr k)))
      ∧ multiMSet levels items ttl
        = (levels.map (fun l => l.msetErr items ttl),
           lastErrSpec (levels.map (fun l => l.msetErr items ttl)))
      ∧ multiMDelete levels keys
        = (levels.map (fun l => l.mdeleteErr keys),
           lastErrSpec (levels.map (fun l => l.mdeleteErr keys)))
      ∧ multiExpire levels k ttl
        = (levels.map (fun l => l.expireErr k ttl),
           lastErrSpec (levels.map (fun l => l.expireErr k ttl)))
      ∧ (multiSet levels k v ttl).1.length = levels.length := by
  intro levels k v ttl items keys
  refine ⟨?_, ?_, ?_, ?_, ?_, ?_⟩
  · simp [multiSet, lastErrLoop_eq_spec]
  · simp [multiDelete, lastErrLoop_eq_spec]
  · simp [multiMSet, lastErrLoop_eq_spec]
  · simp [multiMDelete, lastErrLoop_eq_spec]
  · simp [multiExpire, lastErrLoop_eq_spec]
  · simp [multiSet]

lemma multiGetGo_pass (key : String) (rest : List TierOps) :
    ∀ (misses passed : List TierOps),
      (∀ l ∈ misses, ∃ e, l.getRes key = Except.error e) →
      multiGetGo key passed (misses ++ rest) = multiGetGo key (passed ++ misses) rest
  | [], passed, _ => by simp
  | m :: ms, passed, h => by
    obtain ⟨e, he⟩ := h m (List.mem_cons_self _ _)
    have ih := multiGetGo_pass key rest ms (passed ++ [m])
      (fun l hl => h l (List.mem_cons_of_mem _ hl))
    simp only [List.cons_append, multiGetGo, he, List.append_eq]
    rw [ih, List.append_assoc, List.singleton_append]

/-- C1: when tiers `0..i-1` miss and tier `i` hits with value `v`, the
orchestrator's `Get` returns success carrying `v`; exactly when `i > 0`
and the hit tier's TTL value is a positive duration (the TTL error itself
is discarded, and both in-repo tiers report a nonpositive value on a
failed or absent TTL), `v` is written with that TTL into every tier
`0..i-1`, each backfill outcome being discarded — the result is `ok v` no
matter how the backfill writes fail. -/
theorem C1_get_backfill :
    ∀ (misses : List TierOps) (hit : TierOps) (later : List TierOps) (key : String) (v : JVal),
      (∀ l ∈ misses, ∃ e, l.getRes key = Except.error e) →
      hit.getRes key = Except.ok v →
      multiLevelGet (misses ++ hit :: later) key
        = (Except.ok v,
           if 0 < misses.length ∧ 0 < (hit.ttlRes key).1 then
             misses.enum.map (fun p => (p.1, p.2.setRes key v (hit.ttlRes key).1))
           else []) := by
  intro misses hit later key v hm hh
  unfold multiLevelGet
  rw [multiGetGo_pass key (hit :: later) misses [] hm]
  simp only [List.nil_append, multiGetGo, hh]
  by_cases h1 : 0 < misses.length
  · by_cases h2 : 0 < (hit.ttlRes key).1
    · simp [h1, h2]
    · simp [h1, h2]
  · simp [h1]

/-- Witness for C1: a miss tier in front of a hit tier with TTL 60; the
read succeeds and one backfill write into tier 0 is performed. -/
theorem C1_get_backfill_witness :
    multiLevelGet [missTier, hitTier] "x" = (Except.ok (JVal.jint 1), [(0, none)]) := by
  have h := C1_get_backfill [missTier] hitTier [] "x" (JVal.jint 1)
    (fun l hl => by
      rw [List.mem_singleton] at hl
      subst hl
      exact ⟨CacheError.notFoundKey "x", rfl⟩)
    rfl
  simpa [hitTier, missTier] using h

/-- C3 counterexample to the claim as stated: a single tier fails `Get`
with a Backend (transport) error and no tier hits, yet the caller
receives a fresh per-key NotFound error, not that Backend error. -/
theorem C3_backend_error_not_surfaced :
    backendTier.getRes "k" = Except.error (CacheError.errMsg "dial tcp: connection refused")
    ∧ IsNotFound (some (CacheError.errMsg "dial tcp: connection refused")) = false
    ∧ (multiLevelGet [backendTier] "k").1 = Except.error (CacheError.notFoundKey "k")
    ∧ (multiLevelGet [backendTier] "k").1
        ≠ Except.error (CacheError.errMsg "dial tcp: connection refused") := by
  refine ⟨rfl, rfl, rfl, ?_⟩
  intro h
  rw [show (multiLevelGet [backendTier] "k").1 = Except.error (CacheError.notFoundKey "k")
    from rfl] at h
  simp at h

/-- C3 (amended): the multi-level `Get` treats every tier error — Backend
errors included — as a miss; when no tier hits, the caller receives a
fresh per-key NotFound error and no backfill occurs. Tier errors are
surfaced as-is only where the orchestrator returns them directly (the
fan-out mutations' last error and the single-tier delegations), not by
`Get`. -/
theorem C3_get_total_miss_notfound :
    ∀ (levels : List TierOps) (key : String),
      (∀ l ∈ levels, ∃ e, l.getRes key = Except.error e) →
      multiLevelGet levels key = (Except.error (CacheError.notFoundKey key), []) := by
  intro levels key h
  unfold multiLevelGet
  have h2 := multiGetGo_pass key [] levels [] h
  rw [List.append_nil, List.nil_append] at h2
  rw [h2]
  rfl

/-- Witness for C3 (amended): the down tier yields NotFound to the caller. -/
theorem C3_get_total_miss_notfound_witness :
    multiLevelGet [backendTier] "k" = (Except.error (CacheError.notFoundKey "k"), []) :=
  C3_get_total_miss_notfound [backendTier] "k"
    (fun l hl => by
      rw [List.mem_singleton] at hl
      subst hl
      exact ⟨CacheError.errMsg "dial tcp: connection refused", rfl⟩)
